import Mathlib

/-!
A verification development for the moomoo options bot.

This file gives a shallow embedding of the two algorithmic subsystems of the
repository — the CPPI policy engine (`src/cppi.ts`, class `CPPIEngine`) and the
backtesting engine (`MockDataGenerator` and `BacktestEngine`) — and proves or
refutes the specification claims about them.

Modelling conventions:
* JavaScript `number` values are modelled as exact rationals (`ℚ`).  Where a
  division can produce a non-finite double (`NaN`, `±Infinity`) the result is
  modelled by `JSNum`, which records those outcomes explicitly; everywhere `/`
  is used directly on `ℚ`, the surrounding theorem carries a hypothesis that
  makes the denominator nonzero, so the divergence between `q / 0 = 0` on `ℚ`
  and `NaN` in JavaScript is never exercised.
* `Date` values (the engine only ever compares them and subtracts their
  millisecond timestamps) are modelled as integer timestamps / day numbers;
  chronological comparison of ISO `YYYY-MM-DD` strings through `new Date`
  is order-isomorphic to integer comparison.
* The transcendental pricing kernel (`MockDataGenerator.calculateOptionPrice`
  and its `erf` approximation) is modelled over `ℝ`, since it is built from
  `Math.exp` / `Math.log` / `Math.sqrt`.
-/

namespace Moomoo

/-! ## JavaScript non-finite division results -/

/-- A JavaScript `number` that is either finite (an exact rational) or one of
the non-finite doubles `NaN`, `+Infinity`, `-Infinity`. -/
inductive JSNum where
  | nan : JSNum
  | posInf : JSNum
  | negInf : JSNum
  | fin : ℚ → JSNum
deriving DecidableEq

/-- JavaScript division of two finite numbers: `0 / 0` is `NaN`, a nonzero
numerator over `0` is a signed infinity, otherwise exact division. -/
def jsDiv (a b : ℚ) : JSNum :=
  if b ≠ 0 then .fin (a / b)
  else if a = 0 then .nan
  else if 0 < a then .posInf
  else .negInf

/-- JavaScript `Math.min(x, 1.0)`: `NaN` is absorbing, `+Infinity` yields `1`,
`-Infinity` stays, finite values take the usual minimum. -/
def jsMin1 (x : JSNum) : JSNum :=
  match x with
  | .nan => .nan
  | .posInf => .fin 1
  | .negInf => .negInf
  | .fin q => .fin (min q 1)

/-! ## CPPI policy engine (`src/cppi.ts`) -/

/-- The `riskySplit` block of `CPPIConfig`. -/
structure RiskySplit where
  debit : ℚ
  credit : ℚ
  straddle : ℚ
  hedgeFixed : ℚ
deriving DecidableEq

/-- The `baseRiskPct` block of `CPPIConfig`. -/
structure BaseRiskPct where
  debit : ℚ
  credit : ℚ
  straddle : ℚ
  hedge : ℚ
deriving DecidableEq

/-- The `minTickets` block of `CPPIConfig`. -/
structure MinTickets where
  debit : ℚ
  creditMaxLoss : ℚ
  straddle : ℚ
  hedge : ℚ
deriving DecidableEq

/-- The engine configuration, interface `CPPIConfig` of `src/cppi.ts`.  Note
that it has no initial-capital field. -/
structure CPPIConfig where
  floorPct : ℚ
  cppiM : ℚ
  riskScaleOptions : ℚ
  riskySplit : RiskySplit
  driftBandAbs : ℚ
  rebalanceEveryWeeks : ℤ
  weeklyDeposit : ℚ
  baseRiskPct : BaseRiskPct
  minTickets : MinTickets
deriving DecidableEq

/-- Named sleeve fractions (or sleeve dollar amounts, for the contribution
allocation), interface `SleeveWeights`. -/
structure SleeveWeights where
  debit : ℚ
  credit : ℚ
  straddle : ℚ
  collar : ℚ
  hedge : ℚ
deriving DecidableEq

/-- Per-sleeve equities plus their total, interface `SleeveEquities`. -/
structure SleeveEquities where
  debit : ℚ
  credit : ℚ
  straddle : ℚ
  collar : ℚ
  hedge : ℚ
  total : ℚ
deriving DecidableEq

/-- Sum of the five named components of a `SleeveWeights` value. -/
def sumWeights (w : SleeveWeights) : ℚ :=
  w.debit + w.credit + w.straddle + w.collar + w.hedge

/-- `createDefaultCPPIConfig` of `src/cppi.ts`. -/
def createDefaultCPPIConfig : CPPIConfig :=
  { floorPct := 0.85
    cppiM := 4.0
    riskScaleOptions := 1.25
    riskySplit := { debit := 0.60, credit := 0.15, straddle := 0.25, hedgeFixed := 0.02 }
    driftBandAbs := 0.10
    rebalanceEveryWeeks := 4
    weeklyDeposit := 50
    baseRiskPct := { debit := 0.06, credit := 0.02, straddle := 0.04, hedge := 0.01 }
    minTickets := { debit := 30, creditMaxLoss := 100, straddle := 50, hedge := 5 } }

/-- Milliseconds per week, `7 * 24 * 60 * 60 * 1000`. -/
def msPerWeek : ℚ := 7 * 24 * 60 * 60 * 1000

/-- `CPPIEngine.getWeeksSinceStart`: `Math.floor` of the timestamp difference
divided by `msPerWeek`; `startMs`/`currentMs` are the `getTime()` values of the
engine's start date and the query date. -/
def getWeeksSinceStart (startMs currentMs : ℤ) : ℤ :=
  ⌊((currentMs - startMs : ℤ) : ℚ) / msPerWeek⌋

/-- `CPPIEngine.computeInvestedToDate`: the source returns
`10000 + this.config.weeklyDeposit * weeksSinceStart`, with a literal `10000`
base. -/
def computeInvestedToDate (cfg : CPPIConfig) (startMs currentMs : ℤ) : ℚ :=
  10000 + cfg.weeklyDeposit * (getWeeksSinceStart startMs currentMs : ℚ)

/-- The fields of the source's `CPPIMetrics` record addressed by the claims.
The source record additionally carries `targetWeights`, `currentWeights` and
`needsRebalance`; the first is `computeTargetWeights` (below) applied to the
risky weight, and no claim reads the other two, so they are modelled by the
standalone functions of the source methods rather than duplicated here. -/
structure CPPIMetrics where
  investedToDate : ℚ
  floor : ℚ
  cushion : ℚ
  riskyWeight : JSNum
  weeksSinceStart : ℤ
deriving DecidableEq

/-- `CPPIEngine.computeCPPIMetrics` (lines 81–102 of `src/cppi.ts`):
`floor = floorPct * investedToDate`, `cushion = Math.max(total - floor, 0)`,
`riskyWeight = Math.min(cppiM * cushion / total, 1.0)`.  The source divides by
`sleeveEquities.total` without any guard, so the division is modelled with the
JavaScript semantics `jsDiv`. -/
def computeCPPIMetrics (cfg : CPPIConfig) (startMs currentMs : ℤ)
    (sleeveEquities : SleeveEquities) : CPPIMetrics :=
  let weeksSinceStart := getWeeksSinceStart startMs currentMs
  let investedToDate := computeInvestedToDate cfg startMs currentMs
  let floor := cfg.floorPct * investedToDate
  let cushion := max (sleeveEquities.total - floor) 0
  let riskyWeight := jsMin1 (jsDiv (cfg.cppiM * cushion) sleeveEquities.total)
  { investedToDate := investedToDate
    floor := floor
    cushion := cushion
    riskyWeight := riskyWeight
    weeksSinceStart := weeksSinceStart }

/-- `CPPIEngine.computeTargetWeights` (lines 104–118 of `src/cppi.ts`): the
three risky sleeves get `riskyWeight` times their split fraction, hedge is the
fixed absolute split weight, collar is `Math.max(0, 1 - the other four)`. -/
def computeTargetWeights (cfg : CPPIConfig) (riskyWeight : ℚ) : SleeveWeights :=
  let riskyDebit := riskyWeight * cfg.riskySplit.debit
  let riskyCredit := riskyWeight * cfg.riskySplit.credit
  let riskyStraddle := riskyWeight * cfg.riskySplit.straddle
  let fixedHedge := cfg.riskySplit.hedgeFixed
  let collar := max 0 (1.0 - riskyDebit - riskyCredit - riskyStraddle - fixedHedge)
  { debit := riskyDebit
    credit := riskyCredit
    straddle := riskyStraddle
    collar := collar
    hedge := fixedHedge }

/-- `CPPIEngine.computeContributionsAllocation` (lines 149–193 of
`src/cppi.ts`).  Shortfall per sleeve versus `target × (total + deposit)`,
clamped at zero; if the total shortfall fits in the deposit, fund it and
spread the remainder pro-rata by target weight, otherwise scale every
shortfall by `deposit / totalShortfall`.  (The pro-rata branch divides by the
sum of the target weights; theorems about this function carry a hypothesis
keeping that sum nonzero, matching the `SleeveWeights` sum-to-one data
invariant, so `ℚ` division agrees with the JavaScript division there.) -/
def computeContributionsAllocation (targetWeights : SleeveWeights)
    (currentEquities : SleeveEquities) (weeklyDeposit : ℚ) : SleeveWeights :=
  let targetTotalAfterDeposit := currentEquities.total + weeklyDeposit
  let targetDollars : SleeveWeights :=
    { debit := targetWeights.debit * targetTotalAfterDeposit
      credit := targetWeights.credit * targetTotalAfterDeposit
      straddle := targetWeights.straddle * targetTotalAfterDeposit
      collar := targetWeights.collar * targetTotalAfterDeposit
      hedge := targetWeights.hedge * targetTotalAfterDeposit }
  let shortfalls : SleeveWeights :=
    { debit := max 0 (targetDollars.debit - currentEquities.debit)
      credit := max 0 (targetDollars.credit - currentEquities.credit)
      straddle := max 0 (targetDollars.straddle - currentEquities.straddle)
      collar := max 0 (targetDollars.collar - currentEquities.collar)
      hedge := max 0 (targetDollars.hedge - currentEquities.hedge) }
  let totalShortfall := shortfalls.debit + shortfalls.credit + shortfalls.straddle
    + shortfalls.collar + shortfalls.hedge
  if totalShortfall ≤ weeklyDeposit then
    let remaining := weeklyDeposit - totalShortfall
    if 0 < remaining then
      let totalTarget := targetWeights.debit + targetWeights.credit + targetWeights.straddle
        + targetWeights.collar + targetWeights.hedge
      { debit := shortfalls.debit + remaining * (targetWeights.debit / totalTarget)
        credit := shortfalls.credit + remaining * (targetWeights.credit / totalTarget)
        straddle := shortfalls.straddle + remaining * (targetWeights.straddle / totalTarget)
        collar := shortfalls.collar + remaining * (targetWeights.collar / totalTarget)
        hedge := shortfalls.hedge + remaining * (targetWeights.hedge / totalTarget) }
    else shortfalls
  else
    let scaleFactor := weeklyDeposit / totalShortfall
    { debit := shortfalls.debit * scaleFactor
      credit := shortfalls.credit * scaleFactor
      straddle := shortfalls.straddle * scaleFactor
      collar := shortfalls.collar * scaleFactor
      hedge := shortfalls.hedge * scaleFactor }

/-- The specification's formula for invested-to-date, written from the spec's
words for comparison with the source's `computeInvestedToDate`: the run's
configured initial capital plus `weeklyDeposit × floor(weeksSinceStart)`. -/
def investedToDateSpec (initialCapital : ℚ) (cfg : CPPIConfig)
    (startMs currentMs : ℤ) : ℚ :=
  initialCapital + cfg.weeklyDeposit * (getWeeksSinceStart startMs currentMs : ℚ)

/-! ## Backtesting engine (`BacktestEngine` of the backtest module) -/

/-- Option class, the `optionType` field (`"CALL" | "PUT"`). -/
inductive OptionType where
  | call : OptionType
  | put : OptionType
deriving DecidableEq

/-- The structured content of an option symbol
`` `${underlying}_${expiry}_${strike}_${optionType}` ``.  The engine builds
these strings in `generateOptionData` and decodes them by `split('_')` in
`calculatePortfolioValue`; underlyings (`US.SPY`, …) contain no underscore, so
the encoding is injective and the symbol is modelled structurally.  Dates are
day numbers: comparing `new Date` values of ISO dates is order-isomorphic to
comparing day numbers. -/
structure OptionSymbol where
  underlying : String
  expiry : ℤ
  strike : ℚ
  optType : OptionType
deriving DecidableEq

/-- An option quote of the generated surface (`OptionData`): its quote date,
its symbol and its price.  The greeks and open interest are not read by any
function modelled here. -/
structure OptionQuote where
  date : ℤ
  sym : OptionSymbol
  price : ℚ
deriving DecidableEq

/-- A generated underlying price point (`MarketData`): symbol, date, price. -/
structure MarketPoint where
  symbol : String
  date : ℤ
  price : ℚ
deriving DecidableEq

/-- The engine's immutable data: the option surface (`this.optionData`, a map
from `underlying_date` keys to quote lists) and the price history
(`this.marketData`, a map from symbol to price-point lists), both modelled as
the underlying flat lists; the maps group them without reordering, so the
map-then-`find` lookups below are `find?` over these lists with the grouping
key folded into the predicate. -/
structure Book where
  options : List OptionQuote
  market : List MarketPoint

/-- `this.optionData.get(underlying + "_" + date)?.find(o => o.symbol === symbol)`
— the symbol determines the underlying, so only the date needs to be added to
the predicate. -/
def findQuote (book : Book) (d : ℤ) (s : OptionSymbol) : Option OptionQuote :=
  book.options.find? (fun q => decide (q.date = d ∧ q.sym = s))

/-- `(this.marketData.get(underlying) || []).find(m => m.date === d)`. -/
def findMarket (book : Book) (underlying : String) (d : ℤ) : Option MarketPoint :=
  book.market.find? (fun m => decide (m.symbol = underlying ∧ m.date = d))

/-- The intrinsic-value computation of `calculatePortfolioValue`:
`Math.max(0, S - K)` for calls, `Math.max(0, K - S)` for puts. -/
def intrinsicValue (t : OptionType) (strike spotAtExpiry : ℚ) : ℚ :=
  match t with
  | .call => max 0 (spotAtExpiry - strike)
  | .put => max 0 (strike - spotAtExpiry)

/-- One iteration of the `calculatePortfolioValue` loop for the position
`(sym, quantity)` on day `today`: the pair is (value contribution, whether the
position stays in the portfolio map — `false` models `this.portfolio.delete`).
A live quote for today prices the position; otherwise, strictly after expiry
the position is valued at intrinsic value from the underlying's price at the
expiry date (zero if that price point is missing) and dropped; otherwise it
contributes nothing and stays. -/
def valuePosition (book : Book) (today : ℤ) (sym : OptionSymbol) (quantity : ℤ) :
    ℚ × Bool :=
  match findQuote book today sym with
  | some q => (q.price * quantity * 100, true)
  | none =>
    if sym.expiry < today then
      match findMarket book sym.underlying sym.expiry with
      | some atExp =>
          (intrinsicValue sym.optType sym.strike atExp.price * quantity * 100, false)
      | none => (0, false)
    else (0, true)

/-- `BacktestEngine.calculatePortfolioValue` (lines 505–537): cash plus the
sum of the per-position values, together with the portfolio remaining after
expired positions are dropped.  The portfolio map is modelled as its
insertion-ordered entry list. -/
def calculatePortfolioValue (book : Book) (today : ℤ) (cash : ℚ)
    (portfolio : List (OptionSymbol × ℤ)) : ℚ × List (OptionSymbol × ℤ) :=
  portfolio.foldl
    (fun acc p =>
      let r := valuePosition book today p.1 p.2
      (acc.1 + r.1, if r.2 then acc.2 ++ [p] else acc.2))
    (cash, [])

/-- Trade side (`"BUY" | "SELL"`). -/
inductive TradeSide where
  | buy : TradeSide
  | sell : TradeSide
deriving DecidableEq

/-- An immutable trade record (`BacktestTrade`).  The source's `id` field is a
string built from `Date.now()` and `Math.random()` — wall-clock and unseeded
entropy, see the C4 theorem — and is not part of the state the claims compare. -/
structure TradeRec where
  date : ℤ
  symbol : OptionSymbol
  side : TradeSide
  quantity : ℤ
  price : ℚ
  commission : ℚ
  strategy : String
deriving DecidableEq

/-- `Map.get(k) || 0` on the position map (insertion-ordered entry list). -/
def mapGet (m : List (OptionSymbol × ℤ)) (k : OptionSymbol) : ℤ :=
  match m.find? (fun p => decide (p.1 = k)) with
  | some p => p.2
  | none => 0

/-- `Map.set(k, v)`: overwrite in place if the key exists, else append. -/
def mapSet (m : List (OptionSymbol × ℤ)) (k : OptionSymbol) (v : ℤ) :
    List (OptionSymbol × ℤ) :=
  if m.any (fun p => decide (p.1 = k)) then
    m.map (fun p => if p.1 = k then (k, v) else p)
  else m ++ [(k, v)]

/-- `Map.delete(k)`. -/
def mapDelete (m : List (OptionSymbol × ℤ)) (k : OptionSymbol) :
    List (OptionSymbol × ℤ) :=
  m.filter (fun p => decide (p.1 ≠ k))

/-- The mutable simulator state of `BacktestEngine`: cash, the position map,
the append-only trade list, and the state of the engine's seeded LCG. -/
structure SimState where
  cash : ℚ
  portfolio : List (OptionSymbol × ℤ)
  trades : List TradeRec
  randSeed : ℕ
deriving DecidableEq

/-- One step of the engine's seeded generator `BacktestEngine.rnd`
(`this.randSeed = (1664525 * this.randSeed + 1013904223) >>> 0`); the products
stay below 2^53, so double arithmetic is exact and `>>> 0` is `% 2^32`. -/
def lcgNext (s : ℕ) : ℕ := (1664525 * s + 1013904223) % 4294967296

/-- `BacktestEngine.executeTrade` (lines 462–503): commission is the fixed
per-contract rate times quantity; slippage is a seeded draw in `[0.5%, 2%)`
adversarial to the trader; the executed price is floored at `0.01`; a buy
whose gross-plus-commission exceeds cash is skipped (the generator state has
already advanced); otherwise the position map, the cash balance and the trade
list are updated. -/
def executeTrade (commissionPerContract : ℚ) (st : SimState) (symbol : OptionSymbol)
    (side : TradeSide) (quantity : ℤ) (price : ℚ) (strategy : String) (date : ℤ) :
    SimState :=
  let commission := commissionPerContract * (quantity : ℚ)
  let seed := lcgNext st.randSeed
  let slippagePct := 0.005 + ((seed : ℚ) / 4294967296) * 0.015
  let executedPrice :=
    max 0.01 (price + price * slippagePct * (if side = .buy then 1 else -1))
  let gross := executedPrice * (quantity : ℚ) * 100
  if side = .buy ∧ st.cash < gross + commission then
    { st with randSeed := seed }
  else
    let currentPosition := mapGet st.portfolio symbol
    let newPosition := currentPosition + (if side = .buy then quantity else -quantity)
    let portfolio :=
      if newPosition = 0 then mapDelete st.portfolio symbol
      else mapSet st.portfolio symbol newPosition
    let cash :=
      if side = .buy then st.cash - (gross + commission)
      else st.cash + (gross - commission)
    let newTrade : TradeRec :=
      { date := date, symbol := symbol, side := side, quantity := quantity,
        price := executedPrice, commission := commission, strategy := strategy }
    { cash := cash
      portfolio := portfolio
      trades := st.trades ++ [newTrade]
      randSeed := seed }

/-- The executed (slipped) price of a sell inside `executeTrade`, computed
from the pre-call generator state: the seeded slippage draw moves the price
down for sells, and the result is floored at `0.01`. -/
def sellExecutedPrice (seed0 : ℕ) (price : ℚ) : ℚ :=
  max 0.01 (price + price * (0.005 + ((lcgNext seed0 : ℚ) / 4294967296) * 0.015) * (-1))

/-- The gross proceeds of a sell inside `executeTrade`:
executed price × quantity × 100 (the contract multiplier). -/
def sellGross (seed0 : ℕ) (price : ℚ) (quantity : ℤ) : ℚ :=
  sellExecutedPrice seed0 price * (quantity : ℚ) * 100

/-- A strategy leg as returned by the leg builders:
`{symbol, side, quantity, price}`. -/
structure StrategyLeg where
  symbol : OptionSymbol
  side : TradeSide
  quantity : ℤ
  price : ℚ
deriving DecidableEq

/-- `BacktestEngine.buildATMStraddle` (lines 423–443).  `none` models the
uncaught `TypeError` that `calls.reduce(...)` (no initial value) throws when
`calls` is empty; with a nonempty `calls = c :: cs`, JavaScript `reduce`
without an initial value is a left fold over `cs` starting from `c`.  If the
underlying has no market point for the current date the builder returns the
empty list before touching `reduce`; if no put exists at the ATM call's strike
it returns the empty list. -/
def buildATMStraddle (book : Book) (today : ℤ) (options : List OptionQuote)
    (underlying : String) : Option (List StrategyLeg) :=
  match findMarket book underlying today with
  | none => some []
  | some marketPoint =>
    let spot := marketPoint.price
    let calls := options.filter (fun o => decide (o.sym.optType = .call))
    let puts := options.filter (fun o => decide (o.sym.optType = .put))
    match calls with
    | [] => none
    | c :: cs =>
      let atmCall := cs.foldl
        (fun prev curr =>
          if |curr.sym.strike - spot| < |prev.sym.strike - spot| then curr else prev) c
      match puts.find? (fun p => decide (p.sym.strike = atmCall.sym.strike)) with
      | none => some []
      | some atmPut =>
        some [{ symbol := atmCall.sym, side := .buy, quantity := 1, price := atmCall.price },
              { symbol := atmPut.sym, side := .buy, quantity := 1, price := atmPut.price }]

/-- The underlying selection at the top of `BacktestEngine.executeStrategy`
(line 344): `universe[Math.floor(Math.random() * universe.length)]`.
`Math.random()` is an unseeded draw from system entropy — not one of the
engine's seeded generators (`MockDataGenerator.rnd`, mulberry32 with seed 42,
and `BacktestEngine.rnd`, the LCG `lcgNext` with seed 123456789) — so it is
modelled as an explicit input `entropy ∈ [0,1)`. -/
def pickStrategyUnderlying (symbols : List String) (entropy : ℚ) : Option String :=
  symbols.get? (⌊entropy * (symbols.length : ℚ)⌋).toNat

/-- The per-trade P&L overlay of `BacktestEngine.calculateMetrics` for
strategies without a dedicated case (line 599):
`(Math.random() - 0.45) * premium * qty * 100`, with the unseeded
`Math.random()` draw again passed as an explicit `entropy` input. -/
def tradePnLOverlayDefault (entropy premium : ℚ) (qty : ℤ) : ℚ :=
  (entropy - 0.45) * premium * (qty : ℚ) * 100

/-! ## Sample data used by witnesses and counterexamples -/

/-- A call symbol on `US.SPY`, strike `100`, expiring on day `5`. -/
def sampleCallSym : OptionSymbol :=
  { underlying := "US.SPY", expiry := 5, strike := 100, optType := .call }

/-- A put symbol on `US.SPY`, strike `100`, expiring on day `30`. -/
def samplePutSym : OptionSymbol :=
  { underlying := "US.SPY", expiry := 30, strike := 100, optType := .put }

/-- A book whose only quote is dated day `0` for `sampleCallSym` (so every
quote is dated no later than its expiry) and whose price history has `US.SPY`
at `108` on day `5`, the expiry of `sampleCallSym`. -/
def sampleBook : Book :=
  { options := [{ date := 0, sym := sampleCallSym, price := 3 }]
    market := [{ symbol := "US.SPY", date := 5, price := 108 }] }

/-- A surface for day `0` holding a single put quote and no calls. -/
def samplePutOnlyOptions : List OptionQuote :=
  [{ date := 0, sym := samplePutSym, price := 5 }]

/-- A call symbol on `US.SPY`, strike `100`, expiring on day `30`. -/
def sampleCallOnlySym : OptionSymbol :=
  { underlying := "US.SPY", expiry := 30, strike := 100, optType := .call }

/-- A surface for day `0` holding a single call quote and no puts. -/
def sampleCallOnlyOptions : List OptionQuote :=
  [{ date := 0, sym := sampleCallOnlySym, price := 5 }]

/-- A book whose price history has `US.SPY` at `100` on day `0` (so the
ATM-straddle builder reaches its `reduce` call on day `0`). -/
def sampleSpotBook : Book :=
  { options := [], market := [{ symbol := "US.SPY", date := 0, price := 100 }] }

/-- A simulator start state: no cash, no positions, no trades, the engine's
initial seed `123456789`. -/
def simState0 : SimState :=
  { cash := 0, portfolio := [], trades := [], randSeed := 123456789 }

/-! ## Pricing kernel (`MockDataGenerator`), over `ℝ` -/

/-- The quantity `y` computed by `MockDataGenerator.erf` (lines 217–233) from
the absolute value `ax` of its argument: `t = 1/(1 + p·ax)` and
`y = 1 − ((((a5·t + a4)·t + a3)·t + a2)·t + a1)·t·exp(−ax²)`, with the
source's Abramowitz–Stegun coefficients. -/
noncomputable def erfY (ax : ℝ) : ℝ :=
  let a1 : ℝ := 0.254829592
  let a2 : ℝ := -0.284496736
  let a3 : ℝ := 1.421413741
  let a4 : ℝ := -1.453152027
  let a5 : ℝ := 1.061405429
  let p : ℝ := 0.3275911
  let t : ℝ := 1.0 / (1.0 + p * ax)
  1.0 - (((((a5 * t + a4) * t) + a3) * t + a2) * t + a1) * t * Real.exp (-(ax * ax))

/-- `MockDataGenerator.erf`: `sign · y(|x|)`, where `sign` is `-1` for
negative arguments and `1` otherwise (`const sign = x < 0 ? -1 : 1`). -/
noncomputable def erf (x : ℝ) : ℝ :=
  (if x < 0 then (-1 : ℝ) else 1) * erfY |x|

/-- `MockDataGenerator.normalCDF`: `(1 + erf(x/√2))/2`. -/
noncomputable def normalCDF (x : ℝ) : ℝ :=
  (1.0 + erf (x / Real.sqrt 2.0)) / 2.0

/-- The `d1` of `MockDataGenerator.calculateOptionPrice` (lines 197–207), with
the kernel's fixed risk-free rate `0.05`:
`(log(S/K) + (r + 0.5σ²)T) / (σ√T)`. -/
noncomputable def bsD1 (spot strike timeToExpiry vol : ℝ) : ℝ :=
  (Real.log (spot / strike) + (0.05 + 0.5 * vol ^ 2) * timeToExpiry)
    / (vol * Real.sqrt timeToExpiry)

/-- The `d2 = d1 − σ√T` of `MockDataGenerator.calculateOptionPrice`. -/
noncomputable def bsD2 (spot strike timeToExpiry vol : ℝ) : ℝ :=
  bsD1 spot strike timeToExpiry vol - vol * Real.sqrt timeToExpiry

/-- `MockDataGenerator.calculateOptionPrice`:
call `= S·N(d1) − K·e^{−rT}·N(d2)`, put `= K·e^{−rT}·N(−d2) − S·N(−d1)`,
with `N = normalCDF` and `r = 0.05`. -/
noncomputable def calculateOptionPrice (spot strike timeToExpiry vol : ℝ)
    (type : OptionType) : ℝ :=
  match type with
  | .call =>
      spot * normalCDF (bsD1 spot strike timeToExpiry vol)
        - strike * Real.exp (-(0.05 * timeToExpiry))
          * normalCDF (bsD2 spot strike timeToExpiry vol)
  | .put =>
      strike * Real.exp (-(0.05 * timeToExpiry))
          * normalCDF (-(bsD2 spot strike timeToExpiry vol))
        - spot * normalCDF (-(bsD1 spot strike timeToExpiry vol))

/-- The spot of the C7 counterexample: chosen so that `d1 = 0` exactly at
strike `10^10`, expiry `0.02` years and volatility `0.05`
(`S = K·e^{−(r+σ²/2)T}`). -/
noncomputable def c7Spot : ℝ :=
  10 ^ 10 * Real.exp (-((0.05 + 0.5 * 0.05 ^ 2) * 0.02))

end Moomoo

namespace Moomoo

/-! ## Claims about the CPPI engine -/

/-- C1 (code evaluated at the failing input): with the default configuration,
start date equal to the query date, and a sleeve-equities snapshot whose total
equity is exactly `0` (which is at most the computed floor of `8500`),
`computeCPPIMetrics` yields `cushion = 0` but `riskyWeight = NaN` — the result
of the unguarded division `cppiM * cushion / equityTotal = 0 / 0` — rather
than the `riskyWeight = 0` the claim states. -/
theorem computeCPPIMetrics_zero_total_gives_nan :
    (computeCPPIMetrics createDefaultCPPIConfig 0 0
        { debit := 0, credit := 0, straddle := 0, collar := 0, hedge := 0, total := 0 }).cushion
      = 0 ∧
    (computeCPPIMetrics createDefaultCPPIConfig 0 0
        { debit := 0, credit := 0, straddle := 0, collar := 0, hedge := 0, total := 0 }).riskyWeight
      = JSNum.nan ∧
    (computeCPPIMetrics createDefaultCPPIConfig 0 0
        { debit := 0, credit := 0, straddle := 0, collar := 0, hedge := 0, total := 0 }).floor
      = 8500 := by
  have hw : getWeeksSinceStart 0 0 = 0 := by
    simp [getWeeksSinceStart]
  have hinv : computeInvestedToDate createDefaultCPPIConfig 0 0 = 10000 := by
    rw [computeInvestedToDate, hw]
    norm_num [createDefaultCPPIConfig]
  refine ⟨?_, ?_, ?_⟩ <;>
    · simp only [computeCPPIMetrics, hinv]
      norm_num [createDefaultCPPIConfig, jsDiv, jsMin1]

/-- C2 counterexample: with the default configuration (risky split
`0.60/0.15/0.25`, fixed hedge `0.02`) and `riskyWeight = 1 ∈ [0,1]`, the five
target weights sum to `1.02`, which is not within `1e-6` of `1.0` — the collar
residual is clamped at `0` and cannot absorb the excess `hedgeFixed`. -/
theorem targetWeights_sum_counterexample :
    (0 : ℚ) ≤ 1 ∧ (1 : ℚ) ≤ 1 ∧
    sumWeights (computeTargetWeights createDefaultCPPIConfig 1) = 1.02 ∧
    ¬ |sumWeights (computeTargetWeights createDefaultCPPIConfig 1) - 1| ≤ 1e-6 := by
  have hsum : sumWeights (computeTargetWeights createDefaultCPPIConfig 1) = 1.02 := by
    norm_num [sumWeights, computeTargetWeights, createDefaultCPPIConfig]
  refine ⟨by norm_num, le_refl 1, hsum, ?_⟩
  rw [hsum]
  have habs : |(1.02 : ℚ) - 1| = 0.02 := by norm_num
  rw [habs]
  norm_num

/-- C2 as amended: for every configuration and every `riskyWeight ∈ [0,1]`
such that the residual `1 − (riskyDebit + riskyCredit + riskyStraddle +
hedgeFixed)` is nonnegative, the five target weights sum to `1.0` within
`1e-6` (in fact exactly), and the collar weight is nonnegative (the latter
unconditionally, by the `Math.max(0, ·)` clamp). -/
theorem targetWeights_sum_one (cfg : CPPIConfig) (r : ℚ) (h0 : 0 ≤ r) (h1 : r ≤ 1)
    (hres : r * cfg.riskySplit.debit + r * cfg.riskySplit.credit
      + r * cfg.riskySplit.straddle + cfg.riskySplit.hedgeFixed ≤ 1) :
    |sumWeights (computeTargetWeights cfg r) - 1| ≤ 1e-6 ∧
    0 ≤ (computeTargetWeights cfg r).collar := by
  have hcollar : max 0 (1.0 - r * cfg.riskySplit.debit - r * cfg.riskySplit.credit
      - r * cfg.riskySplit.straddle - cfg.riskySplit.hedgeFixed)
      = 1.0 - r * cfg.riskySplit.debit - r * cfg.riskySplit.credit
      - r * cfg.riskySplit.straddle - cfg.riskySplit.hedgeFixed := by
    rw [max_eq_right]
    linarith
  constructor
  · have hval : sumWeights (computeTargetWeights cfg r) - 1 = 0 := by
      simp only [sumWeights, computeTargetWeights]
      rw [hcollar]
      ring
    rw [hval]
    norm_num
  · simp only [computeTargetWeights]
    exact le_max_left _ _

/-- Witness for `targetWeights_sum_one`: the default configuration at
`riskyWeight = 1/2` satisfies the hypotheses, and the conclusion holds there. -/
theorem targetWeights_sum_one_witness :
    ((0 : ℚ) ≤ 1/2 ∧ (1/2 : ℚ) ≤ 1 ∧
      (1/2 : ℚ) * createDefaultCPPIConfig.riskySplit.debit
        + (1/2) * createDefaultCPPIConfig.riskySplit.credit
        + (1/2) * createDefaultCPPIConfig.riskySplit.straddle
        + createDefaultCPPIConfig.riskySplit.hedgeFixed ≤ 1) ∧
    (|sumWeights (computeTargetWeights createDefaultCPPIConfig (1/2)) - 1| ≤ 1e-6 ∧
      0 ≤ (computeTargetWeights createDefaultCPPIConfig (1/2)).collar) :=
  ⟨⟨by norm_num, by norm_num, by norm_num [createDefaultCPPIConfig]⟩,
    targetWeights_sum_one createDefaultCPPIConfig (1/2) (by norm_num) (by norm_num)
      (by norm_num [createDefaultCPPIConfig])⟩

/-- C3: for every target-weight vector satisfying the `SleeveWeights` data
invariant (components sum to `1.0` within `1e-6`), every sleeve-equities
snapshot and every deposit `≥ 0`, the five allocations returned by
`computeContributionsAllocation` sum exactly to the deposit, in both the
shortfall-fits branch (with and without a pro-rata remainder) and the
scaled-down branch. -/
theorem contributionsAllocation_sums_to_deposit (tw : SleeveWeights)
    (eqs : SleeveEquities) (dep : ℚ) (hdep : 0 ≤ dep)
    (htw : |sumWeights tw - 1| ≤ 1e-6) :
    sumWeights (computeContributionsAllocation tw eqs dep) = dep := by
  have hsum : (0 : ℚ) < tw.debit + tw.credit + tw.straddle + tw.collar + tw.hedge := by
    have h := abs_le.mp htw
    have := h.1
    simp only [sumWeights] at this
    linarith
  have hne : tw.debit + tw.credit + tw.straddle + tw.collar + tw.hedge ≠ 0 :=
    ne_of_gt hsum
  simp only [computeContributionsAllocation]
  split
  · split
    · rename_i hfits hrem
      simp only [sumWeights]
      field_simp
      ring
    · rename_i hfits hrem
      have heq : dep - (max 0 (tw.debit * (eqs.total + dep) - eqs.debit)
          + max 0 (tw.credit * (eqs.total + dep) - eqs.credit)
          + max 0 (tw.straddle * (eqs.total + dep) - eqs.straddle)
          + max 0 (tw.collar * (eqs.total + dep) - eqs.collar)
          + max 0 (tw.hedge * (eqs.total + dep) - eqs.hedge)) = 0 := by
        push_neg at hrem
        linarith
      simp only [sumWeights]
      linarith
  · rename_i hover
    push_neg at hover
    have hpos : (0 : ℚ) < max 0 (tw.debit * (eqs.total + dep) - eqs.debit)
        + max 0 (tw.credit * (eqs.total + dep) - eqs.credit)
        + max 0 (tw.straddle * (eqs.total + dep) - eqs.straddle)
        + max 0 (tw.collar * (eqs.total + dep) - eqs.collar)
        + max 0 (tw.hedge * (eqs.total + dep) - eqs.hedge) := lt_of_le_of_lt hdep hover
    simp only [sumWeights]
    field_simp
    ring

/-- Witness for `contributionsAllocation_sums_to_deposit`: equal target
weights of `1/5`, an all-zero equity snapshot and a deposit of `50`. -/
theorem contributionsAllocation_sums_to_deposit_witness :
    ((0 : ℚ) ≤ 50 ∧
      |sumWeights { debit := 1/5, credit := 1/5, straddle := 1/5,
                    collar := 1/5, hedge := 1/5 } - 1| ≤ 1e-6) ∧
    sumWeights (computeContributionsAllocation
      { debit := 1/5, credit := 1/5, straddle := 1/5, collar := 1/5, hedge := 1/5 }
      { debit := 0, credit := 0, straddle := 0, collar := 0, hedge := 0, total := 0 }
      50) = 50 :=
  ⟨⟨by norm_num, by norm_num [sumWeights]⟩,
    contributionsAllocation_sums_to_deposit _ _ 50 (by norm_num)
      (by norm_num [sumWeights])⟩

/-- C9 counterexample: for a run configured with an initial capital of
`25000` (the backtester accepts `--capital 25000`; `CPPIConfig` itself has no
initial-capital field at all), `computeInvestedToDate` at week `0` returns the
built-in `10000`, not the configured `25000` the claim's formula requires. -/
theorem investedToDate_ignores_configured_capital :
    computeInvestedToDate createDefaultCPPIConfig 0 0 = 10000 ∧
    computeInvestedToDate createDefaultCPPIConfig 0 0
      ≠ investedToDateSpec 25000 createDefaultCPPIConfig 0 0 := by
  constructor <;>
    norm_num [computeInvestedToDate, investedToDateSpec, getWeeksSinceStart,
      createDefaultCPPIConfig, msPerWeek]

/-- C9 as amended: for every configuration and every start/current timestamp,
`computeInvestedToDate` returns `10000 + weeklyDeposit × floor(weeksSinceStart)`
— the spec formula with the fixed built-in base `10000` in place of the run's
configured initial capital; the floored week count moreover equals integer
floor division of the millisecond difference by `msPerWeek`. -/
theorem investedToDate_eq_fixed_base (cfg : CPPIConfig) (startMs currentMs : ℤ) :
    computeInvestedToDate cfg startMs currentMs
      = investedToDateSpec 10000 cfg startMs currentMs ∧
    getWeeksSinceStart startMs currentMs = (currentMs - startMs) / 604800000 := by
  refine ⟨rfl, ?_⟩
  have h : ((604800000 : ℕ) : ℚ) = msPerWeek := by norm_num [msPerWeek]
  calc ⌊((currentMs - startMs : ℤ) : ℚ) / msPerWeek⌋
      = ⌊((currentMs - startMs : ℤ) : ℚ) / ((604800000 : ℕ) : ℚ)⌋ := by rw [h]
    _ = (currentMs - startMs) / ((604800000 : ℕ) : ℤ) :=
        Rat.floor_intCast_div_natCast _ _
    _ = (currentMs - startMs) / 604800000 := by norm_num

/-! ## Claims about the backtesting engine -/

/-- C4 (code evaluated at the failing input): with the default universe
`["US.SPY","US.QQQ","US.IWM"]` and everything else — configuration, built-in
seeds — held fixed, the underlying that `executeStrategy` trades depends on
the unseeded `Math.random()` draw (entropy `0` picks `US.SPY`, entropy `1/2`
picks `US.QQQ`), and the per-trade P&L overlay of `calculateMetrics` likewise
changes with its unseeded draw; the trade list and the performance metrics are
therefore not functions of the configuration and seeds alone, contradicting
the claim that every random draw comes from the in-process seeded
generators. -/
theorem backtest_depends_on_unseeded_entropy :
    pickStrategyUnderlying ["US.SPY", "US.QQQ", "US.IWM"] 0 = some "US.SPY" ∧
    pickStrategyUnderlying ["US.SPY", "US.QQQ", "US.IWM"] (1/2) = some "US.QQQ" ∧
    pickStrategyUnderlying ["US.SPY", "US.QQQ", "US.IWM"] 0
      ≠ pickStrategyUnderlying ["US.SPY", "US.QQQ", "US.IWM"] (1/2) ∧
    tradePnLOverlayDefault 0 1 1 ≠ tradePnLOverlayDefault 1 1 1 := by
  have h1 : pickStrategyUnderlying ["US.SPY", "US.QQQ", "US.IWM"] 0 = some "US.SPY" := by
    norm_num [pickStrategyUnderlying]
  have h2 : pickStrategyUnderlying ["US.SPY", "US.QQQ", "US.IWM"] (1/2) = some "US.QQQ" := by
    norm_num [pickStrategyUnderlying]
  refine ⟨h1, h2, ?_, ?_⟩
  · rw [h1, h2]
    simp
  · norm_num [tradePnLOverlayDefault]

/-- C5: when the mark date is strictly after the position's expiry and the
option surface satisfies the lifecycle invariant that no quote is dated after
its symbol's expiry (the generator only creates expiries 7–45 days after the
quote date, so an expired position can have no live quote), the
`calculatePortfolioValue` iteration values the position at its intrinsic value
from the underlying's expiry-date price — `max(S−K,0)` for calls,
`max(K−S,0)` for puts, times quantity times 100 — and removes it from the
portfolio; when the expiry-date price point is also missing, the position
contributes `0` (and is still removed) rather than failing the mark. -/
theorem valuePosition_after_expiry (book : Book) (today : ℤ) (sym : OptionSymbol)
    (quantity : ℤ) (hwf : ∀ q ∈ book.options, q.date ≤ q.sym.expiry)
    (hexp : sym.expiry < today) :
    (valuePosition book today sym quantity).2 = false ∧
    (∀ atExp, findMarket book sym.underlying sym.expiry = some atExp →
      (valuePosition book today sym quantity).1
        = intrinsicValue sym.optType sym.strike atExp.price * (quantity : ℚ) * 100) ∧
    (findMarket book sym.underlying sym.expiry = none →
      (valuePosition book today sym quantity).1 = 0) := by
  have hq : findQuote book today sym = none := by
    unfold findQuote
    rw [List.find?_eq_none]
    intro q hmem
    simp only [decide_eq_true_eq, not_and]
    intro hdate hsym
    have hle := hwf q hmem
    rw [hdate, hsym] at hle
    exact absurd hexp (not_lt.mpr hle)
  cases hm : findMarket book sym.underlying sym.expiry with
  | none =>
    refine ⟨?_, ?_, ?_⟩
    · simp only [valuePosition, hq, if_pos hexp, hm]
    · intro atExp ha
      cases ha
    · intro _
      simp only [valuePosition, hq, if_pos hexp, hm]
  | some atExp =>
    refine ⟨?_, ?_, ?_⟩
    · simp only [valuePosition, hq, if_pos hexp, hm]
    · intro b hb
      cases hb
      simp only [valuePosition, hq, if_pos hexp, hm]
    · intro hnone
      cases hnone

/-- Witness for `valuePosition_after_expiry`: in `sampleBook` (quote dated
day 0, expiry-day-5 price `108`), the call `sampleCallSym` (strike `100`)
held with quantity `2` and marked on day `10 > 5` is valued at
`(108 − 100) × 2 × 100 = 1600` and removed. -/
theorem valuePosition_after_expiry_witness :
    ((∀ q ∈ sampleBook.options, q.date ≤ q.sym.expiry) ∧ sampleCallSym.expiry < 10) ∧
    (valuePosition sampleBook 10 sampleCallSym 2).1 = 1600 ∧
    (valuePosition sampleBook 10 sampleCallSym 2).2 = false := by
  have hwf : ∀ q ∈ sampleBook.options, q.date ≤ q.sym.expiry := by
    intro q hmem
    simp only [sampleBook, List.mem_singleton] at hmem
    rw [hmem]
    norm_num [sampleCallSym]
  have hexp : sampleCallSym.expiry < 10 := by norm_num [sampleCallSym]
  have h := valuePosition_after_expiry sampleBook 10 sampleCallSym 2 hwf hexp
  have hm : findMarket sampleBook sampleCallSym.underlying sampleCallSym.expiry
      = some { symbol := "US.SPY", date := 5, price := 108 } := by
    simp [findMarket, sampleBook, sampleCallSym]
  have hval := h.2.1 _ hm
  refine ⟨⟨hwf, hexp⟩, ?_, h.1⟩
  rw [hval]
  norm_num [intrinsicValue, sampleCallSym]

/-- C6: a requested buy whose gross cash flow at the executed (slipped) price
plus commission exceeds the available cash is silently skipped: the cash
balance, the position map and the trade list are unchanged (only the seeded
slippage generator has advanced, which the claim does not mention), and no
trade record is appended. -/
theorem executeTrade_buy_insufficient_cash_skips (commissionPerContract : ℚ)
    (st : SimState) (symbol : OptionSymbol) (quantity : ℤ) (price : ℚ)
    (strategy : String) (date : ℤ)
    (h : st.cash <
      max 0.01 (price + price * (0.005 + ((lcgNext st.randSeed : ℚ) / 4294967296) * 0.015) * 1)
        * (quantity : ℚ) * 100 + commissionPerContract * (quantity : ℚ)) :
    (executeTrade commissionPerContract st symbol .buy quantity price strategy date).cash
      = st.cash ∧
    (executeTrade commissionPerContract st symbol .buy quantity price strategy date).portfolio
      = st.portfolio ∧
    (executeTrade commissionPerContract st symbol .buy quantity price strategy date).trades
      = st.trades := by
  simp only [executeTrade]
  rw [if_pos ⟨trivial, by simpa using h⟩]
  exact ⟨rfl, rfl, rfl⟩

/-- Witness for `executeTrade_buy_insufficient_cash_skips`: with zero cash, a
buy of one contract at price `1` with commission `3/2` is skipped and the
state (cash, positions, trades) is untouched. -/
theorem executeTrade_buy_skip_witness :
    (simState0.cash <
      max 0.01 ((1:ℚ) + 1 * (0.005 + ((lcgNext simState0.randSeed : ℚ) / 4294967296) * 0.015) * 1)
        * ((1:ℤ) : ℚ) * 100 + (3/2) * ((1:ℤ) : ℚ)) ∧
    ((executeTrade (3/2) simState0 sampleCallSym .buy 1 1 "crash_hedge" 0).cash
        = simState0.cash ∧
      (executeTrade (3/2) simState0 sampleCallSym .buy 1 1 "crash_hedge" 0).portfolio
        = simState0.portfolio ∧
      (executeTrade (3/2) simState0 sampleCallSym .buy 1 1 "crash_hedge" 0).trades
        = simState0.trades) := by
  have hmax : (0.01 : ℚ)
      ≤ max 0.01 ((1:ℚ) + 1 * (0.005 + ((lcgNext simState0.randSeed : ℚ) / 4294967296) * 0.015) * 1) :=
    le_max_left _ _
  have h : simState0.cash <
      max 0.01 ((1:ℚ) + 1 * (0.005 + ((lcgNext simState0.randSeed : ℚ) / 4294967296) * 0.015) * 1)
        * ((1:ℤ) : ℚ) * 100 + (3/2) * ((1:ℤ) : ℚ) := by
    have hc : simState0.cash = 0 := rfl
    rw [hc]
    push_cast
    nlinarith [hmax]
  exact ⟨h, executeTrade_buy_insufficient_cash_skips (3/2) simState0 sampleCallSym 1 1
    "crash_hedge" 0 h⟩

/-- C10: a sell is always executed, whatever the cash balance or the existing
position: the position entry is decremented by the sold quantity (and deleted
when it reaches zero), the executed-price trade record is appended, and cash
changes by gross proceeds minus commission — so whenever the commission
exceeds the gross proceeds, the sell strictly decreases the cash balance
(which can therefore go negative, see the witness). -/
theorem executeTrade_sell_always_executes (commissionPerContract : ℚ)
    (st : SimState) (symbol : OptionSymbol) (quantity : ℤ) (price : ℚ)
    (strategy : String) (date : ℤ) :
    (executeTrade commissionPerContract st symbol .sell quantity price strategy date).cash
      = st.cash + (sellGross st.randSeed price quantity
          - commissionPerContract * (quantity : ℚ)) ∧
    (executeTrade commissionPerContract st symbol .sell quantity price strategy date).trades
      = st.trades ++ [⟨date, symbol, .sell, quantity, sellExecutedPrice st.randSeed price,
          commissionPerContract * (quantity : ℚ), strategy⟩] ∧
    (executeTrade commissionPerContract st symbol .sell quantity price strategy date).portfolio
      = (if mapGet st.portfolio symbol - quantity = 0
        then mapDelete st.portfolio symbol
        else mapSet st.portfolio symbol (mapGet st.portfolio symbol - quantity)) ∧
    (sellGross st.randSeed price quantity < commissionPerContract * (quantity : ℚ) →
      (executeTrade commissionPerContract st symbol .sell quantity price strategy date).cash
        < st.cash) := by
  have hcash : (executeTrade commissionPerContract st symbol .sell quantity price
      strategy date).cash
      = st.cash + (sellGross st.randSeed price quantity
          - commissionPerContract * (quantity : ℚ)) := by
    simp [executeTrade, sellGross, sellExecutedPrice]
  refine ⟨hcash, ?_, ?_, ?_⟩
  · simp [executeTrade, sellExecutedPrice]
  · simp [executeTrade, sub_eq_add_neg]
  · intro hlt
    rw [hcash]
    linarith

/-- Witness for `executeTrade_sell_always_executes`: selling one contract
quoted at price `0` (executed price floored at `0.01`, gross `1`) with
commission `3/2` drives the cash balance from `0` to `-1/2 < 0`. -/
theorem executeTrade_sell_negative_cash_witness :
    (executeTrade (3/2) simState0 samplePutSym .sell 1 0 "credit_put_spread" 0).cash
      = -(1/2) ∧
    (executeTrade (3/2) simState0 samplePutSym .sell 1 0 "credit_put_spread" 0).cash
      < simState0.cash := by
  have h := executeTrade_sell_always_executes (3/2) simState0 samplePutSym 1 0
    "credit_put_spread" 0
  have hgross : sellGross simState0.randSeed 0 1 = 1 := by
    norm_num [sellGross, sellExecutedPrice]
  have h1 : (executeTrade (3/2) simState0 samplePutSym .sell 1 0 "credit_put_spread" 0).cash
      = -(1/2) := by
    rw [h.1, hgross]
    norm_num [simState0]
  refine ⟨h1, ?_⟩
  rw [h1]
  norm_num [simState0]

/-- C8 counterexample: on a day whose market point exists, `buildATMStraddle`
applied to a surface containing a put but no calls does not return the empty
list — `calls.reduce` with no initial value throws a `TypeError` on the empty
`calls` array (modelled as `none`), so the builder fails instead of returning
`[]`. -/
theorem buildATMStraddle_no_calls_throws :
    buildATMStraddle sampleSpotBook 0 samplePutOnlyOptions "US.SPY" = none ∧
    buildATMStraddle sampleSpotBook 0 samplePutOnlyOptions "US.SPY" ≠ some [] := by
  have h : buildATMStraddle sampleSpotBook 0 samplePutOnlyOptions "US.SPY" = none := by
    decide
  exact ⟨h, by rw [h]; exact fun hx => Option.noConfusion hx⟩

/-- C8 as amended: whenever the surface contains at least one call for the
date, `buildATMStraddle` never fails — it returns some list of legs — and if
the surface moreover contains no puts the result is the empty list (skip this
strategy), as it also is when the underlying has no market point for the
date; only the no-calls case of the original claim fails (it throws, see the
counterexample). -/
theorem buildATMStraddle_with_calls_never_throws (book : Book) (today : ℤ)
    (options : List OptionQuote) (underlying : String)
    (hcalls : options.filter (fun o => decide (o.sym.optType = .call)) ≠ []) :
    (buildATMStraddle book today options underlying).isSome = true ∧
    (options.filter (fun o => decide (o.sym.optType = .put)) = [] →
      buildATMStraddle book today options underlying = some []) := by
  refine ⟨?_, ?_⟩
  · simp only [buildATMStraddle]
    split
    · rfl
    · split
      · rename_i hnil
        exact absurd hnil hcalls
      · split
        · rfl
        · rfl
  · intro hput
    simp only [buildATMStraddle, hput, List.find?_nil]
    split
    · rfl
    · split
      · rename_i hnil
        exact absurd hnil hcalls
      · rfl

/-- Witness for `buildATMStraddle_with_calls_never_throws`: a one-call,
no-put surface on a day with a market point yields `some []` (skip), not a
failure. -/
theorem buildATMStraddle_call_only_witness :
    (sampleCallOnlyOptions.filter (fun o => decide (o.sym.optType = OptionType.call)) ≠ []) ∧
    (buildATMStraddle sampleSpotBook 0 sampleCallOnlyOptions "US.SPY").isSome = true ∧
    buildATMStraddle sampleSpotBook 0 sampleCallOnlyOptions "US.SPY" = some [] := by
  have hcalls : sampleCallOnlyOptions.filter
      (fun o => decide (o.sym.optType = OptionType.call)) ≠ [] := by decide
  have h := buildATMStraddle_with_calls_never_throws sampleSpotBook 0 sampleCallOnlyOptions
    "US.SPY" hcalls
  exact ⟨hcalls, h.1, h.2 (by decide)⟩

/-! ## Put-call parity of the pricing kernel (C7)

The `erf` approximation is exactly odd away from `0` (the sign trick), so
`normalCDF x + normalCDF (-x) = 1` exactly for `x ≠ 0`; at `x = 0` the
approximation leaves the residue `erf 0 = 1 − (a1+a2+a3+a4+a5) = 1e-9`.  The
parity defect is therefore `S·1e-9` when `d1 = 0`, `−K·e^{−rT}·1e-9` when
`d2 = 0` and `0` otherwise — within `1e-3` for moderate `S, K`, but not for
arbitrarily large ones. -/

theorem erf_neg_of_pos (x : ℝ) (hx : 0 < x) : erf (-x) = - erf x := by
  unfold erf
  rw [abs_neg, if_neg (not_lt.mpr hx.le), if_pos (neg_lt_zero.mpr hx)]
  ring

theorem erf_add_neg_eq_zero (x : ℝ) (hx : x ≠ 0) : erf x + erf (-x) = 0 := by
  rcases hx.lt_or_lt with h | h
  · have hpos : 0 < -x := neg_pos.mpr h
    have := erf_neg_of_pos (-x) hpos
    rw [neg_neg] at this
    rw [this]
    ring
  · rw [erf_neg_of_pos x h]
    ring

theorem erf_zero_val : erf 0 = 1e-9 := by
  simp only [erf, erfY]
  rw [abs_zero, if_neg (lt_irrefl (0 : ℝ))]
  norm_num [Real.exp_zero]

theorem normalCDF_add_neg (x : ℝ) (hx : x ≠ 0) : normalCDF x + normalCDF (-x) = 1 := by
  unfold normalCDF
  have h2 : Real.sqrt 2.0 ≠ 0 := by
    have : (0 : ℝ) < Real.sqrt 2.0 := Real.sqrt_pos.mpr (by norm_num)
    exact ne_of_gt this
  have hdiv : x / Real.sqrt 2.0 ≠ 0 := div_ne_zero hx h2
  have hneg : (-x) / Real.sqrt 2.0 = -(x / Real.sqrt 2.0) := by ring
  have hsum : erf (-x / Real.sqrt 2.0) = - erf (x / Real.sqrt 2.0) := by
    rw [hneg]
    have := erf_add_neg_eq_zero (x / Real.sqrt 2.0) hdiv
    linarith
  rw [hsum]
  ring

theorem normalCDF_zero_sum : normalCDF 0 + normalCDF (-0) = 1 + 1e-9 := by
  rw [neg_zero]
  unfold normalCDF
  rw [zero_div, erf_zero_val]
  norm_num

theorem parity_defect (S K T σ : ℝ) :
    calculateOptionPrice S K T σ .call - calculateOptionPrice S K T σ .put
      - (S - K * Real.exp (-(0.05 * T)))
      = S * (normalCDF (bsD1 S K T σ) + normalCDF (-(bsD1 S K T σ)) - 1)
        - K * Real.exp (-(0.05 * T))
          * (normalCDF (bsD2 S K T σ) + normalCDF (-(bsD2 S K T σ)) - 1) := by
  simp only [calculateOptionPrice]
  ring

/-- C7 as amended: put-call parity of the pricing kernel holds within `1e-3`
absolute on the claimed domain `T ∈ [0.02,1]`, `σ ∈ [0.05,1]` provided
additionally `S ≤ 10^6` and `K ≤ 10^6`; without the magnitude bound the
residual `1e-9` of the error-function approximation at `d = 0` can exceed
`1e-3` (see the counterexample). -/
theorem putCallParity_bounded (S K T σ : ℝ)
    (hS0 : 0 < S) (hS1 : S ≤ 10 ^ 6) (hK0 : 0 < K) (hK1 : K ≤ 10 ^ 6)
    (hT0 : 0.02 ≤ T) (hT1 : T ≤ 1) (hσ0 : 0.05 ≤ σ) (hσ1 : σ ≤ 1) :
    |calculateOptionPrice S K T σ .call - calculateOptionPrice S K T σ .put
      - (S - K * Real.exp (-(0.05 * T)))| ≤ 1e-3 := by
  have hTpos : (0 : ℝ) < T := lt_of_lt_of_le (by norm_num) hT0
  have hσpos : (0 : ℝ) < σ := lt_of_lt_of_le (by norm_num) hσ0
  have hσT : 0 < σ * Real.sqrt T := mul_pos hσpos (Real.sqrt_pos.mpr hTpos)
  have hd12 : bsD1 S K T σ - bsD2 S K T σ = σ * Real.sqrt T := by
    simp only [bsD2]
    ring
  have hExpLe : Real.exp (-(0.05 * T)) ≤ 1 := by
    rw [Real.exp_le_one_iff]
    nlinarith
  have hExpPos : 0 < Real.exp (-(0.05 * T)) := Real.exp_pos _
  rw [parity_defect]
  by_cases h1 : bsD1 S K T σ = 0
  · have h2 : bsD2 S K T σ ≠ 0 := by
      intro h20
      rw [h1, h20] at hd12
      have h0 : (0 : ℝ) = σ * Real.sqrt T := by linarith
      rw [← h0] at hσT
      exact lt_irrefl 0 hσT
    have e1 : normalCDF (bsD1 S K T σ) + normalCDF (-(bsD1 S K T σ)) - 1 = 1e-9 := by
      rw [h1]
      have := normalCDF_zero_sum
      linarith
    have e2 : normalCDF (bsD2 S K T σ) + normalCDF (-(bsD2 S K T σ)) - 1 = 0 := by
      have := normalCDF_add_neg (bsD2 S K T σ) h2
      linarith
    rw [e1, e2, mul_zero, sub_zero]
    rw [abs_of_nonneg (by positivity)]
    linarith
  · by_cases h2 : bsD2 S K T σ = 0
    · have e1 : normalCDF (bsD1 S K T σ) + normalCDF (-(bsD1 S K T σ)) - 1 = 0 := by
        have := normalCDF_add_neg (bsD1 S K T σ) h1
        linarith
      have e2 : normalCDF (bsD2 S K T σ) + normalCDF (-(bsD2 S K T σ)) - 1 = 1e-9 := by
        rw [h2]
        have := normalCDF_zero_sum
        linarith
      rw [e1, e2, mul_zero, zero_sub, abs_neg]
      rw [abs_of_nonneg (by positivity)]
      nlinarith
    · have e1 : normalCDF (bsD1 S K T σ) + normalCDF (-(bsD1 S K T σ)) - 1 = 0 := by
        have := normalCDF_add_neg (bsD1 S K T σ) h1
        linarith
      have e2 : normalCDF (bsD2 S K T σ) + normalCDF (-(bsD2 S K T σ)) - 1 = 0 := by
        have := normalCDF_add_neg (bsD2 S K T σ) h2
        linarith
      rw [e1, e2, mul_zero, mul_zero, sub_zero, abs_zero]
      norm_num

/-- Witness for `putCallParity_bounded`: at `S = K = 100`, `T = 1`, `σ = 1`
all hypotheses hold, and parity holds within `1e-3`. -/
theorem putCallParity_bounded_witness :
    ((0 : ℝ) < 100 ∧ (100 : ℝ) ≤ 10 ^ 6 ∧ (0.02 : ℝ) ≤ 1 ∧ (1 : ℝ) ≤ 1 ∧
      (0.05 : ℝ) ≤ 1) ∧
    |calculateOptionPrice 100 100 1 1 .call - calculateOptionPrice 100 100 1 1 .put
      - (100 - 100 * Real.exp (-(0.05 * 1)))| ≤ 1e-3 :=
  ⟨⟨by norm_num, by norm_num, by norm_num, le_refl 1, by norm_num⟩,
    putCallParity_bounded 100 100 1 1 (by norm_num) (by norm_num) (by norm_num)
      (by norm_num) (by norm_num) (by norm_num) (by norm_num) (by norm_num)⟩

/-- C7 counterexample: at strike `K = 10^10`, `T = 0.02`, `σ = 0.05` and the
spot `c7Spot = K·e^{−(r+σ²/2)T} > 0` (so `d1 = 0` exactly), all of the
claim's domain conditions hold, yet the call-minus-put price differs from
`S − K·e^{−rT}` by `c7Spot · 1e-9 ≈ 9.99`, far more than `1e-3`: the claim's
tolerance fails for large spot/strike magnitudes. -/
theorem putCallParity_counterexample :
    (0 < c7Spot ∧ (0 : ℝ) < 10 ^ 10 ∧
      (0.02 : ℝ) ≤ 0.02 ∧ (0.02 : ℝ) ≤ 1 ∧ (0.05 : ℝ) ≤ 0.05 ∧ (0.05 : ℝ) ≤ 1) ∧
    ¬ |calculateOptionPrice c7Spot (10 ^ 10) 0.02 0.05 .call
        - calculateOptionPrice c7Spot (10 ^ 10) 0.02 0.05 .put
        - (c7Spot - 10 ^ 10 * Real.exp (-(0.05 * 0.02)))| ≤ 1e-3 := by
  have hSpos : (0 : ℝ) < c7Spot := by
    unfold c7Spot
    positivity
  have hd1 : bsD1 c7Spot (10 ^ 10) 0.02 0.05 = 0 := by
    unfold bsD1
    have hdiv : c7Spot / (10 ^ 10 : ℝ) = Real.exp (-((0.05 + 0.5 * 0.05 ^ 2) * 0.02)) := by
      unfold c7Spot
      field_simp
    rw [hdiv, Real.log_exp]
    norm_num
  have hσT : (0 : ℝ) < 0.05 * Real.sqrt 0.02 :=
    mul_pos (by norm_num) (Real.sqrt_pos.mpr (by norm_num))
  have hd2 : bsD2 c7Spot (10 ^ 10) 0.02 0.05 ≠ 0 := by
    unfold bsD2
    rw [hd1]
    intro hcontra
    rw [zero_sub, neg_eq_zero] at hcontra
    exact absurd hcontra (ne_of_gt hσT)
  have e1 : normalCDF (bsD1 c7Spot (10 ^ 10) 0.02 0.05)
      + normalCDF (-(bsD1 c7Spot (10 ^ 10) 0.02 0.05)) - 1 = 1e-9 := by
    rw [hd1]
    have := normalCDF_zero_sum
    linarith
  have e2 : normalCDF (bsD2 c7Spot (10 ^ 10) 0.02 0.05)
      + normalCDF (-(bsD2 c7Spot (10 ^ 10) 0.02 0.05)) - 1 = 0 := by
    have := normalCDF_add_neg (bsD2 c7Spot (10 ^ 10) 0.02 0.05) hd2
    linarith
  have hdefect : calculateOptionPrice c7Spot (10 ^ 10) 0.02 0.05 .call
      - calculateOptionPrice c7Spot (10 ^ 10) 0.02 0.05 .put
      - (c7Spot - 10 ^ 10 * Real.exp (-(0.05 * 0.02)))
      = c7Spot * 1e-9 := by
    rw [parity_defect, e1, e2, mul_zero, sub_zero]
  have hSbig : (10 ^ 9 : ℝ) ≤ c7Spot := by
    unfold c7Spot
    have hexp : (1 : ℝ) - (0.05 + 0.5 * 0.05 ^ 2) * 0.02
        ≤ Real.exp (-((0.05 + 0.5 * 0.05 ^ 2) * 0.02)) := by
      have := Real.add_one_le_exp (-((0.05 + 0.5 * 0.05 ^ 2) * 0.02))
      linarith
    nlinarith
  refine ⟨⟨hSpos, by norm_num, le_refl _, by norm_num, le_refl _, by norm_num⟩, ?_⟩
  rw [hdefect, abs_of_nonneg (by positivity)]
  intro hle
  nlinarith

end Moomoo
